import Mathlib

/-!
Shallow embedding of the two probes of the am-i-isolated repository
(src/device_access.rs and src/hostmounts.rs) together with proofs about
their evidence collection, verdict, explanation and fault-code logic.

Filesystem state is passed explicitly: each probe is a pure function from
a record describing the observable OS state (directory listings, file
existence / metadata / socket-type answers, the text of the mount table)
to the result record the Rust code builds.

String primitives (lexicographic comparison, prefix / substring tests,
whitespace splitting, line splitting) are implemented over character
lists so that every definition evaluates inside the kernel on concrete
inputs.  Rust's `String` ordering is byte-lexicographic on UTF-8, which
coincides with codepoint-lexicographic order as implemented here.
-/

/-- Lexicographic comparison of character lists, mirroring Rust's `Ord`
on `String` (byte order on UTF-8 equals codepoint order). -/
def leChars : List Char → List Char → Bool
  | [], _ => true
  | _ :: _, [] => false
  | a :: as, b :: bs => if a < b then true else if b < a then false else leChars as bs

/-- `a <= b` in Rust's string order. -/
def strLe (a b : String) : Bool := leChars a.toList b.toList

/-- The string order as a relation, used for sortedness statements. -/
def strOrd (a b : String) : Prop := strLe a b = true

/-- `isPre p l` : `p` is a prefix of `l` (models Rust `str::starts_with`). -/
def isPre : List Char → List Char → Bool
  | [], _ => true
  | _ :: _, [] => false
  | a :: as, b :: bs => a = b && isPre as bs

/-- `hasPattern pat l` : `pat` occurs as a contiguous substring of `l`
(models Rust `str::contains`). -/
def hasPattern (pat : List Char) : List Char → Bool
  | [] => pat.isEmpty
  | c :: rest => isPre pat (c :: rest) || hasPattern pat rest

/-- Rust `s.contains(pat)`. -/
def strContains (s pat : String) : Bool := hasPattern pat.toList s.toList

/-- Rust `s.starts_with(p)`. -/
def strStarts (s p : String) : Bool := isPre p.toList s.toList

/-- Rust `Vec::join(sep)` / `slice::join`. -/
def joinSep (sep : String) : List String → String
  | [] => ""
  | [a] => a
  | a :: b :: rest => a ++ sep ++ joinSep sep (b :: rest)

/-- Accumulator-based word splitter over characters: splits at whitespace,
dropping empty segments, as Rust `str::split_whitespace` does. -/
def wordsAux : List Char → List Char → List (List Char)
  | acc, [] => if acc.isEmpty then [] else [acc.reverse]
  | acc, c :: rest =>
    if c.isWhitespace then
      if acc.isEmpty then wordsAux [] rest else acc.reverse :: wordsAux [] rest
    else wordsAux (c :: acc) rest

/-- Rust `str::split_whitespace`, collected to a list. -/
def splitWs (s : String) : List String := (wordsAux [] s.toList).map fun cs => String.mk cs

/-- Split a character list at newline characters (every segment kept). -/
def splitNl : List Char → List (List Char)
  | [] => [[]]
  | c :: rest =>
    if c = '\n' then [] :: splitNl rest
    else
      match splitNl rest with
      | [] => [[c]]
      | h :: t => (c :: h) :: t

/-- Drop one trailing carriage return, as Rust `str::lines` does per line. -/
def stripCr (l : List Char) : List Char := if l.getLast? = some '\r' then l.dropLast else l

/-- Rust `str::lines`, collected to a list: a trailing final line ending
produces no extra empty line. -/
def rustLines (s : String) : List String :=
  let ls := splitNl s.toList
  let ls := if ls.getLast? = some [] then ls.dropLast else ls
  ls.map fun cs => String.mk (stripCr cs)

/-- Rust `Vec::dedup`: remove consecutive duplicate elements, keeping the
first of each run. -/
def dedupConsec : List String → List String
  | [] => []
  | [a] => [a]
  | a :: b :: rest => if a = b then dedupConsec (b :: rest) else a :: dedupConsec (b :: rest)

instance : DecidableRel strOrd := fun a b => inferInstanceAs (Decidable (strLe a b = true))

/-- Rust `Vec::sort()` followed by `Vec::dedup()` on a vector of strings. -/
def rustSortDedup (l : List String) : List String := dedupConsec (List.insertionSort strOrd l)

/-- A list that is sorted in Rust's string order and has no duplicates. -/
def sortedNodup (l : List String) : Prop := l.Sorted strOrd ∧ l.Nodup

theorem leChars_total : ∀ (x y : List Char), leChars x y = true ∨ leChars y x = true
  | [], _ => Or.inl rfl
  | _ :: _, [] => Or.inr rfl
  | a :: as, b :: bs => by
    rcases lt_trichotomy a b with h | h | h
    · left; simp [leChars, h]
    · subst h
      rcases leChars_total as bs with ih | ih
      · left; simp [leChars, lt_irrefl, ih]
      · right; simp [leChars, lt_irrefl, ih]
    · right; simp [leChars, h]

theorem leChars_trans : ∀ (x y z : List Char),
    leChars x y = true → leChars y z = true → leChars x z = true
  | [], _, _, _, _ => rfl
  | _ :: _, [], _, h, _ => by simp [leChars] at h
  | _ :: _, _ :: _, [], _, h => by simp [leChars] at h
  | a :: as, b :: bs, c :: cs, h₁, h₂ => by
    by_cases hab : a < b
    · by_cases hbc : b < c
      · simp [leChars, lt_trans hab hbc]
      · by_cases hcb : c < b
        · simp [leChars, hbc, hcb] at h₂
        · have hbc' : b = c := le_antisymm (not_lt.mp hcb) (not_lt.mp hbc)
          subst hbc'
          simp [leChars, hab]
    · by_cases hba : b < a
      · simp [leChars, hab, hba] at h₁
      · have hab' : a = b := le_antisymm (not_lt.mp hba) (not_lt.mp hab)
        subst hab'
        by_cases hac : a < c
        · simp [leChars, hac]
        · by_cases hca : c < a
          · simp [leChars, hac, hca] at h₂
          · have hac' : a = c := le_antisymm (not_lt.mp hca) (not_lt.mp hac)
            subst hac'
            simp [leChars, lt_irrefl] at h₁ h₂ ⊢
            exact leChars_trans as bs cs h₁ h₂

theorem leChars_antisymm : ∀ (x y : List Char),
    leChars x y = true → leChars y x = true → x = y
  | [], [], _, _ => rfl
  | [], _ :: _, _, h => by simp [leChars] at h
  | _ :: _, [], h, _ => by simp [leChars] at h
  | a :: as, b :: bs, h₁, h₂ => by
    by_cases hab : a < b
    · simp [leChars, hab, lt_asymm hab] at h₂
    · by_cases hba : b < a
      · simp [leChars, hab, hba] at h₁
      · have hab' : a = b := le_antisymm (not_lt.mp hba) (not_lt.mp hab)
        subst hab'
        simp [leChars, lt_irrefl] at h₁ h₂
        rw [leChars_antisymm as bs h₁ h₂]

instance : IsTotal String strOrd := ⟨fun a b => leChars_total a.toList b.toList⟩

instance : IsTrans String strOrd := ⟨fun _ _ _ h₁ h₂ => leChars_trans _ _ _ h₁ h₂⟩

theorem strOrd_antisymm {a b : String} (h₁ : strOrd a b) (h₂ : strOrd b a) : a = b := by
  have h := leChars_antisymm _ _ h₁ h₂
  cases a
  cases b
  exact congrArg String.mk h

theorem mem_dedupConsec : ∀ (l : List String) (a : String), a ∈ dedupConsec l ↔ a ∈ l
  | [], _ => Iff.rfl
  | [_], _ => Iff.rfl
  | b :: c :: rest, a => by
    by_cases h : b = c
    · subst h
      have he : dedupConsec (b :: b :: rest) = dedupConsec (b :: rest) := by
        simp [dedupConsec]
      rw [he, mem_dedupConsec (b :: rest) a]
      simp only [List.mem_cons]
      tauto
    · simp only [dedupConsec, if_neg h]
      rw [List.mem_cons, mem_dedupConsec (c :: rest) a]
      simp [List.mem_cons]

theorem sublist_dedupConsec : ∀ (l : List String), (dedupConsec l).Sublist l
  | [] => List.Sublist.slnil
  | [a] => by simp [dedupConsec]
  | b :: c :: rest => by
    by_cases h : b = c
    · subst h
      simp only [dedupConsec, if_pos rfl]
      exact (sublist_dedupConsec (b :: rest)).cons _
    · simp only [dedupConsec, if_neg h]
      exact (sublist_dedupConsec (c :: rest)).cons₂ _

theorem head_dedupConsec : ∀ (a : String) (l : List String),
    (dedupConsec (a :: l)).head? = some a
  | _, [] => rfl
  | a, b :: rest => by
    by_cases h : a = b
    · subst h
      simp only [dedupConsec, if_pos rfl]
      exact head_dedupConsec a rest
    · simp [dedupConsec, h]

theorem chain_dedupConsec : ∀ (l : List String), (dedupConsec l).Chain' (fun a b => a ≠ b)
  | [] => trivial
  | [a] => by simp [dedupConsec]
  | a :: b :: rest => by
    by_cases h : a = b
    · subst h
      simp only [dedupConsec, if_pos rfl]
      exact chain_dedupConsec (a :: rest)
    · simp only [dedupConsec, if_neg h]
      rw [List.chain'_cons']
      refine ⟨?_, chain_dedupConsec (b :: rest)⟩
      intro x hx
      rw [head_dedupConsec b rest] at hx
      cases hx
      exact h

theorem chain_and {α : Type} {R S : α → α → Prop} :
    ∀ {l : List α}, l.Chain' R → l.Chain' S → l.Chain' (fun a b => R a b ∧ S a b)
  | [], _, _ => trivial
  | [_], _, _ => by simp
  | _ :: _ :: _, h₁, h₂ => by
    rw [List.chain'_cons] at h₁ h₂ ⊢
    exact ⟨⟨h₁.1, h₂.1⟩, chain_and h₁.2 h₂.2⟩

theorem sortedNodup_rustSortDedup (l : List String) : sortedNodup (rustSortDedup l) := by
  have hs : (List.insertionSort strOrd l).Sorted strOrd := List.sorted_insertionSort strOrd l
  have hsorted : (rustSortDedup l).Sorted strOrd :=
    List.Pairwise.sublist (sublist_dedupConsec _) hs
  have hcomb :
      (rustSortDedup l).Chain' (fun a b => strOrd a b ∧ a ≠ b) :=
    chain_and hsorted.chain' (chain_dedupConsec _)
  haveI : IsTrans String (fun a b => strOrd a b ∧ a ≠ b) := by
    refine ⟨fun a b c h₁ h₂ => ⟨Trans.trans h₁.1 h₂.1, ?_⟩⟩
    intro hac
    subst hac
    exact h₁.2 (strOrd_antisymm h₁.1 h₂.1)
  have hpw : (rustSortDedup l).Pairwise (fun a b => strOrd a b ∧ a ≠ b) :=
    List.chain'_iff_pairwise.mp hcomb
  exact ⟨hsorted, hpw.imp fun h => h.2⟩

theorem mem_rustSortDedup {a : String} {l : List String} : a ∈ rustSortDedup l ↔ a ∈ l := by
  unfold rustSortDedup
  rw [mem_dedupConsec]
  exact (List.perm_insertionSort strOrd l).mem_iff

/-!
Device access probe (src/device_access.rs).
-/

/-- File type of a directory entry, as reported by `fs::Metadata::file_type()`. -/
inductive FileType
  | block
  | char
  | other
deriving DecidableEq

/-- One entry of a directory listing: its name, its file type, and whether
`entry.metadata()` succeeds (on failure the Rust code skips the entry). -/
structure DirEntry where
  name : String
  ftype : FileType
  metaOk : Bool
deriving DecidableEq

/-- Observable filesystem state consulted by the device probe:
`pathEx p` is `Path::new(p).exists()`, `metaOk p` is whether
`fs::metadata(p)` succeeds, `devDir` is the listing of `/dev`
(`none` when `fs::read_dir("/dev")` fails), `driDir` is the listing of
`/dev/dri` entry names (`none` when that `read_dir` fails). -/
structure DeviceFS where
  pathEx : String → Bool
  metaOk : String → Bool
  devDir : Option (List DirEntry)
  driDir : Option (List String)

/-- The result record built by `DeviceAccessTest::run`. -/
structure DeviceAccessResult where
  dangerous_devices : List String
  block_devices : List String
  hardware_rngs : List String
  gpu_devices : List String
  character_devices : List String
deriving DecidableEq

/-- The fixed list of highly dangerous memory device paths. -/
def dangerousDevicePaths : List String := ["/dev/mem", "/dev/kmem", "/dev/port"]

/-- Storage-driver name test for block devices (`sd`, `nvme`, `vd`, `hd`, `xvd`). -/
def isStorageName (n : String) : Bool :=
  strStarts n "sd" || strStarts n "nvme" || strStarts n "vd" ||
    strStarts n "hd" || strStarts n "xvd"

/-- Hardware RNG name test: starts with `hwrng`, or is exactly `random` or `urandom`. -/
def isRngName (n : String) : Bool :=
  strStarts n "hwrng" || n == "random" || n == "urandom"

/-- GPU device name test: `nvidia`-prefixed, `dri/`-prefixed, or full path
containing `/dri/`. -/
def isGpuName (n : String) : Bool :=
  strStarts n "nvidia" || strStarts n "dri/" || strContains ("/dev/" ++ n) "/dri/"

/-- Other potentially dangerous character device name test: terminals,
pseudo-terminal slaves, console, framebuffers, input devices. -/
def isOtherCharName (n : String) : Bool :=
  strStarts n "tty" || strStarts n "pts/" || n == "console" ||
    strStarts n "fb" || strStarts n "input/"

/-- Contribution of one `/dev` entry to `block_devices`. -/
def entryBlockEv (e : DirEntry) : List String :=
  if e.ftype = FileType.block ∧ isStorageName e.name = true then ["/dev/" ++ e.name] else []

/-- Contribution of one `/dev` entry to `hardware_rngs`. -/
def entryRngEv (e : DirEntry) : List String :=
  if e.ftype = FileType.char ∧ isRngName e.name = true then ["/dev/" ++ e.name] else []

/-- Contribution of one `/dev` entry to `gpu_devices` (from the `/dev` scan). -/
def entryGpuEv (e : DirEntry) : List String :=
  if e.ftype = FileType.char ∧ isGpuName e.name = true then ["/dev/" ++ e.name] else []

/-- Contribution of one `/dev` entry to `character_devices`. -/
def entryCharEv (e : DirEntry) : List String :=
  if e.ftype = FileType.char ∧ isOtherCharName e.name = true then ["/dev/" ++ e.name] else []

/-- `DeviceAccessTest::run`: dangerous-path existence scan (the permission
check in the source is a tautology, so existence of readable metadata is
the whole condition), the `/dev` entry scan, and the extra `/dev/dri` scan
appended to GPU evidence.  No collection is sorted or deduplicated. -/
def deviceRun (fs : DeviceFS) : DeviceAccessResult :=
  let entries := (fs.devDir.getD []).filter fun e => e.metaOk
  { dangerous_devices := dangerousDevicePaths.filter fun p => fs.pathEx p && fs.metaOk p
    block_devices := entries.flatMap entryBlockEv
    hardware_rngs := entries.flatMap entryRngEv
    gpu_devices :=
      entries.flatMap entryGpuEv ++ (fs.driDir.getD []).map fun n => "/dev/dri/" ++ n
    character_devices := entries.flatMap entryCharEv }

/-- `Test::run` as exposed through the probe contract: the source always
returns `Ok`, so the failure branch of the `Result` type is never taken. -/
def deviceRunE (fs : DeviceFS) : Except Unit DeviceAccessResult :=
  Except.ok (deviceRun fs)

/-- `DeviceAccessResult::success`. -/
def DeviceAccessResult.success (r : DeviceAccessResult) : Bool :=
  r.dangerous_devices.isEmpty && r.block_devices.isEmpty && r.gpu_devices.isEmpty &&
    decide (r.character_devices.length ≤ 3)

/-- Evidence classes of the device probe, used to tag which class each
issue message in `explain` came from. -/
inductive DevClass
  | dangerous
  | block
  | rng
  | gpu
  | chardev
deriving DecidableEq

/-- The `issues` list built by `DeviceAccessResult::explain`, with each
message tagged by the evidence class that produced it. -/
def DeviceAccessResult.explainParts (r : DeviceAccessResult) : List (DevClass × String) :=
  (if r.dangerous_devices.isEmpty then [] else
    [(DevClass.dangerous,
      "access to dangerous memory devices: " ++ joinSep ", " r.dangerous_devices)]) ++
  (if r.block_devices.isEmpty then [] else
    [(DevClass.block,
      "access to " ++ toString r.block_devices.length ++ " block devices: " ++
        joinSep ", " (r.block_devices.take 3))]) ++
  (if r.gpu_devices.isEmpty then [] else
    [(DevClass.gpu,
      "access to GPU/graphics devices: " ++ joinSep ", " r.gpu_devices)]) ++
  (if 3 < r.character_devices.length then
    [(DevClass.chardev,
      "access to " ++ toString r.character_devices.length ++
        " character devices including: " ++ joinSep ", " (r.character_devices.take 3))]
   else [])

/-- `DeviceAccessResult::explain`: the issue messages joined with `"; "`,
or the fixed all-clear sentence when no issue was produced. -/
def DeviceAccessResult.explain (r : DeviceAccessResult) : String :=
  let issues := r.explainParts.map Prod.snd
  if issues.isEmpty then "container has minimal device access - good isolation"
  else "container has dangerous device access: " ++ joinSep "; " issues

/-- `DeviceAccessResult::as_string`. -/
def DeviceAccessResult.as_string (r : DeviceAccessResult) : String :=
  if r.success then "no" else "yes"

/-- `DeviceAccessResult::fault_code`. -/
def DeviceAccessResult.fault_code (_ : DeviceAccessResult) : String := "AII3100"

/-!
Host mounts probe (src/hostmounts.rs).
-/

/-- Observable filesystem state consulted by the mounts probe:
`procMounts` is the text of `/proc/mounts` (`none` when the read fails),
`pathEx p` is `Path::new(p).exists()`, `metaOk p` is whether
`fs::metadata(p)` succeeds, and `isSock p` is `file_type().is_socket()`. -/
structure MountFS where
  procMounts : Option String
  pathEx : String → Bool
  metaOk : String → Bool
  isSock : String → Bool

/-- The result record built by `HostMountsTest::run`. -/
structure HostMountsResult where
  dangerous_mounts : List String
  writable_host_mounts : List String
  socket_mounts : List String
  host_root_mounts : List String
deriving DecidableEq

/-- The fixed list of dangerous mount points. -/
def dangerousMountPaths : List String :=
  ["/", "/etc", "/boot", "/var/run", "/sys", "/proc", "/var/lib/docker",
   "/var/lib/containerd", "/run", "/usr", "/lib", "/bin", "/sbin", "/opt", "/home"]

/-- The fixed list of container runtime socket name fragments. -/
def socketPatterns : List String :=
  ["docker.sock", "containerd.sock", "crio.sock", "podman.sock",
   "lxd/unix.socket", "kubelet"]

/-- The fixed list of well-known socket file paths checked directly. -/
def dangerousSocketFiles : List String :=
  ["/var/run/docker.sock", "/var/run/containerd/containerd.sock",
   "/var/run/crio/crio.sock", "/run/docker.sock", "/run/containerd/containerd.sock"]

/-- Split a mount table line on whitespace and keep it only when it has at
least four fields: source device, mount point, filesystem type, options
(further fields are ignored). -/
def parseMountLine (line : String) : Option (String × String × String × String) :=
  match splitWs line with
  | device :: mp :: fsty :: opts :: _ => some (device, mp, fsty, opts)
  | _ => none

/-- Dangerous-mount evidence contributed by one parsed line. -/
def lineDangerous (device mp : String) : List String :=
  (dangerousMountPaths.filter fun dp => mp == dp).map fun _ => device ++ " -> " ++ mp

/-- Real disk filesystem type test used by the host-root-mount rule. -/
def isDiskFsType (fsty : String) : Bool :=
  fsty == "ext4" || fsty == "xfs" || fsty == "btrfs" || fsty == "zfs"

/-- Host-root-mount evidence contributed by one parsed line. -/
def lineHostRoot (device mp fsty : String) : List String :=
  if strStarts device "/dev/" && isDiskFsType fsty && (mp == "/" || strStarts mp "/host")
  then [device ++ " -> " ++ mp ++ " (" ++ fsty ++ ")"] else []

/-- Writable-host-mount evidence contributed by one parsed line. -/
def lineWritable (pathEx : String → Bool) (device mp opts : String) : List String :=
  if !(strContains opts "ro") &&
      (strStarts mp "/host" || strStarts mp "/mnt" || strStarts mp "/media" ||
        (strStarts device "/" && !(strStarts device "/dev/") && pathEx device))
  then [device ++ " -> " ++ mp ++ " (writable)"] else []

/-- Socket-mount evidence contributed by one parsed line. -/
def lineSocket (device mp : String) : List String :=
  (socketPatterns.filter fun p => strContains device p || strContains mp p).map
    fun _ => device ++ " -> " ++ mp

/-- The parsed mount table: the lines of `/proc/mounts` with at least four
fields, in order; empty when the file cannot be read. -/
def mountLines (fs : MountFS) : List (String × String × String × String) :=
  match fs.procMounts with
  | some content => (rustLines content).filterMap parseMountLine
  | none => []

/-- Socket evidence from the direct checks of well-known socket paths:
the path must exist, its metadata must be readable, and its file type
must be a socket. -/
def socketFileEv (fs : MountFS) : List String :=
  (dangerousSocketFiles.filter fun p => fs.pathEx p && fs.metaOk p && fs.isSock p).map
    fun p => "socket access: " ++ p

/-- `HostMountsTest::run`: scan the mount table line by line, then the
well-known socket files, then sort and deduplicate all four collections. -/
def mountsRun (fs : MountFS) : HostMountsResult :=
  let parsed := mountLines fs
  { dangerous_mounts := rustSortDedup (parsed.flatMap fun t => lineDangerous t.1 t.2.1)
    writable_host_mounts :=
      rustSortDedup (parsed.flatMap fun t => lineWritable fs.pathEx t.1 t.2.1 t.2.2.2)
    socket_mounts :=
      rustSortDedup ((parsed.flatMap fun t => lineSocket t.1 t.2.1) ++ socketFileEv fs)
    host_root_mounts :=
      rustSortDedup (parsed.flatMap fun t => lineHostRoot t.1 t.2.1 t.2.2.1) }

/-- `Test::run` as exposed through the probe contract: the source always
returns `Ok`, so the failure branch of the `Result` type is never taken. -/
def mountsRunE (fs : MountFS) : Except Unit HostMountsResult :=
  Except.ok (mountsRun fs)

/-- `HostMountsResult::success`. -/
def HostMountsResult.success (r : HostMountsResult) : Bool :=
  r.dangerous_mounts.isEmpty && r.socket_mounts.isEmpty &&
    r.host_root_mounts.isEmpty && r.writable_host_mounts.isEmpty

/-- Evidence classes of the mounts probe, used to tag which class each
issue message in `explain` came from. -/
inductive MountClass
  | dangerous
  | hostRoot
  | socket
  | writable
deriving DecidableEq

/-- The `issues` list built by `HostMountsResult::explain`, with each
message tagged by the evidence class that produced it. -/
def HostMountsResult.explainParts (r : HostMountsResult) : List (MountClass × String) :=
  (if r.dangerous_mounts.isEmpty then [] else
    [(MountClass.dangerous,
      "dangerous system paths mounted: " ++ joinSep ", " r.dangerous_mounts)]) ++
  (if r.host_root_mounts.isEmpty then [] else
    [(MountClass.hostRoot,
      "host root filesystem accessible: " ++ joinSep ", " r.host_root_mounts)]) ++
  (if r.socket_mounts.isEmpty then [] else
    [(MountClass.socket,
      "container runtime sockets accessible: " ++ joinSep ", " r.socket_mounts)]) ++
  (if r.writable_host_mounts.isEmpty then [] else
    [(MountClass.writable,
      "writable host directories mounted: " ++
        joinSep ", " (r.writable_host_mounts.take 3))])

/-- `HostMountsResult::explain`: the issue messages joined with `"; "`,
or the fixed all-clear sentence when no issue was produced. -/
def HostMountsResult.explain (r : HostMountsResult) : String :=
  let issues := r.explainParts.map Prod.snd
  if issues.isEmpty then "container filesystem isolation is secure"
  else "container has dangerous host access: " ++ joinSep "; " issues

/-- `HostMountsResult::as_string`. -/
def HostMountsResult.as_string (r : HostMountsResult) : String :=
  if r.success then "no" else "yes"

/-- `HostMountsResult::fault_code`. -/
def HostMountsResult.fault_code (_ : HostMountsResult) : String := "AII3200"

/-- The writable-host-mount condition as the specification words it: the
option string does not contain the substring "ro", and either the mount
point begins with one of the host directories, or the source is an
absolute path that is not under the device directory and exists on the
filesystem. -/
def writableSpecCond (pathEx : String → Bool) (device mp opts : String) : Prop :=
  strContains opts "ro" = false ∧
    (strStarts mp "/host" = true ∨ strStarts mp "/mnt" = true ∨
      strStarts mp "/media" = true ∨
      (strStarts device "/" = true ∧ strStarts device "/dev/" = false ∧
        pathEx device = true))

/-!
Concrete states used by witnesses and counterexamples.
-/

/-- A `/dev` listing returned in unsorted order: `read_dir` enumeration
order is filesystem-dependent and in general not sorted. -/
def unsortedDevFS : DeviceFS :=
  ⟨fun _ => false, fun _ => false,
    some [⟨"sdb", FileType.block, true⟩, ⟨"sda", FileType.block, true⟩], none⟩

/-- A `/dev` listing exposing only the standard randomness device. -/
def rngOnlyFS : DeviceFS :=
  ⟨fun _ => false, fun _ => false, some [⟨"random", FileType.char, true⟩], none⟩

/-- A `/dev` listing exposing only `urandom`. -/
def rngWitnessFS : DeviceFS :=
  ⟨fun _ => false, fun _ => false, some [⟨"urandom", FileType.char, true⟩], none⟩

/-- Mount state whose table is the single host-root line of the scenario. -/
def hostRootMountFS : MountFS :=
  ⟨some "/dev/sda1 /host/root ext4 rw 0 0", fun _ => false, fun _ => false, fun _ => false⟩

/-- Mount state whose table is a single writable `/host` mount line. -/
def writableMountFS : MountFS :=
  ⟨some "tmpfs /host/data tmpfs rw,relatime 0 0", fun _ => false, fun _ => false, fun _ => false⟩

/-- Device probe state with every probed path absent or unreadable. -/
def absentDevFS : DeviceFS := ⟨fun _ => false, fun _ => false, none, none⟩

/-- Mounts probe state with every probed path absent or unreadable. -/
def absentMountFS : MountFS := ⟨none, fun _ => false, fun _ => false, fun _ => false⟩

/-!
Shared helper lemmas about the verdicts.
-/

theorem device_success_iff (r : DeviceAccessResult) :
    r.success = true ↔
      (r.dangerous_devices = [] ∧ r.block_devices = [] ∧ r.gpu_devices = [] ∧
        r.character_devices.length ≤ 3) := by
  simp [DeviceAccessResult.success, List.isEmpty_iff, Bool.and_eq_true, decide_eq_true_eq]
  tauto

theorem mounts_success_iff (m : HostMountsResult) :
    m.success = true ↔
      (m.dangerous_mounts = [] ∧ m.writable_host_mounts = [] ∧
        m.socket_mounts = [] ∧ m.host_root_mounts = []) := by
  simp [HostMountsResult.success, List.isEmpty_iff, Bool.and_eq_true]
  tauto

/-!
Claim theorems.
-/

/-- C1: for every Result of either probe (in particular every reachable
one), `success()` is true exactly when all disqualifying evidence
collections are empty: for the device probe the dangerous-device,
block-device and GPU collections are empty and the generic
character-device collection has at most 3 entries; for the mounts probe
all four collections are empty.  The hardware-RNG collection does not
occur in the condition, so it never disqualifies. -/
theorem success_iff_no_disqualifying_evidence :
    ∀ (r : DeviceAccessResult) (m : HostMountsResult),
      (r.success = true ↔
        (r.dangerous_devices = [] ∧ r.block_devices = [] ∧ r.gpu_devices = [] ∧
          r.character_devices.length ≤ 3)) ∧
      (m.success = true ↔
        (m.dangerous_mounts = [] ∧ m.writable_host_mounts = [] ∧
          m.socket_mounts = [] ∧ m.host_root_mounts = [])) :=
  fun r m => ⟨device_success_iff r, mounts_success_iff m⟩

/-- C2 counterexample: the device probe stores block-device evidence in
directory-enumeration order and never sorts or deduplicates it, so on a
state whose `/dev` listing is enumerated as `sdb`, `sda` the collection
is not sorted.  This refutes the claim that every evidence collection of
either probe is sorted and duplicate-free. -/
theorem device_block_evidence_unsorted :
    (deviceRun unsortedDevFS).block_devices = ["/dev/sdb", "/dev/sda"] ∧
    ¬ sortedNodup (deviceRun unsortedDevFS).block_devices := by
  refine ⟨rfl, ?_⟩
  rw [show (deviceRun unsortedDevFS).block_devices = ["/dev/sdb", "/dev/sda"] from rfl]
  intro h
  have h2 : strOrd "/dev/sdb" "/dev/sda" :=
    (List.pairwise_cons.mp h.1).1 "/dev/sda" (by simp)
  exact absurd h2 (by decide)

/-- C2 amended: the mounts probe sorts and deduplicates all four of its
evidence collections before finalizing the Result; the device probe's
collections are left in scan order (see the counterexample). -/
theorem mounts_collections_sorted_nodup :
    ∀ fs : MountFS,
      sortedNodup (mountsRun fs).dangerous_mounts ∧
      sortedNodup (mountsRun fs).writable_host_mounts ∧
      sortedNodup (mountsRun fs).socket_mounts ∧
      sortedNodup (mountsRun fs).host_root_mounts :=
  fun _ => ⟨sortedNodup_rustSortDedup _, sortedNodup_rustSortDedup _,
    sortedNodup_rustSortDedup _, sortedNodup_rustSortDedup _⟩

/-- C3 counterexample: on a state exposing only `/dev/random`, the
hardware-RNG collection is non-empty yet no issue message is produced at
all for it: the issues list carries no RNG tag and the explanation is
the fixed all-clear sentence, so the non-empty RNG class is not
mentioned.  This refutes the claim that `explain()` mentions every
non-empty evidence class. -/
theorem device_explain_silent_on_rng :
    (deviceRun rngOnlyFS).hardware_rngs = ["/dev/random"] ∧
    DevClass.rng ∉ (deviceRun rngOnlyFS).explainParts.map Prod.fst ∧
    (deviceRun rngOnlyFS).explain = "container has minimal device access - good isolation" := by
  refine ⟨rfl, ?_, rfl⟩
  rw [show (deviceRun rngOnlyFS).explainParts = [] from rfl]
  simp

/-- C3 amended: an issue message is produced for an evidence class
exactly when that class is non-empty — except that the device probe's
hardware-RNG class never produces one, and its generic character-device
class produces one exactly when it has more than 3 entries.  Mention is
formalized as the class's tag occurring in `explainParts`, the issues
list from which `explain()` is joined. -/
theorem explain_mentions_nonempty_classes :
    ∀ (r : DeviceAccessResult) (m : HostMountsResult),
      (DevClass.dangerous ∈ r.explainParts.map Prod.fst ↔ r.dangerous_devices ≠ []) ∧
      (DevClass.block ∈ r.explainParts.map Prod.fst ↔ r.block_devices ≠ []) ∧
      (DevClass.gpu ∈ r.explainParts.map Prod.fst ↔ r.gpu_devices ≠ []) ∧
      (DevClass.rng ∉ r.explainParts.map Prod.fst) ∧
      (DevClass.chardev ∈ r.explainParts.map Prod.fst ↔ 3 < r.character_devices.length) ∧
      (MountClass.dangerous ∈ m.explainParts.map Prod.fst ↔ m.dangerous_mounts ≠ []) ∧
      (MountClass.hostRoot ∈ m.explainParts.map Prod.fst ↔ m.host_root_mounts ≠ []) ∧
      (MountClass.socket ∈ m.explainParts.map Prod.fst ↔ m.socket_mounts ≠ []) ∧
      (MountClass.writable ∈ m.explainParts.map Prod.fst ↔ m.writable_host_mounts ≠ []) := by
  intro r m
  refine ⟨?_, ?_, ?_, ?_, ?_, ?_, ?_, ?_, ?_⟩ <;>
  · simp only [DeviceAccessResult.explainParts, HostMountsResult.explainParts,
      List.map_append, List.mem_append]
    split_ifs <;> simp_all [List.isEmpty_iff]

/-- C4: any mount table containing the line
`/dev/sda1 /host/root ext4 rw 0 0` yields host-root-mount evidence
referencing /dev/sda1, /host/root and ext4, writable-host-mount evidence
for the same line, and a failing verdict. -/
theorem hostroot_line_detected (fs : MountFS) (content : String)
    (hc : fs.procMounts = some content)
    (hline : "/dev/sda1 /host/root ext4 rw 0 0" ∈ rustLines content) :
    "/dev/sda1 -> /host/root (ext4)" ∈ (mountsRun fs).host_root_mounts ∧
    "/dev/sda1 -> /host/root (writable)" ∈ (mountsRun fs).writable_host_mounts ∧
    (mountsRun fs).success = false := by
  have hparse : parseMountLine "/dev/sda1 /host/root ext4 rw 0 0" =
      some ("/dev/sda1", "/host/root", "ext4", "rw") := rfl
  have hmem : ("/dev/sda1", "/host/root", "ext4", "rw") ∈ mountLines fs := by
    unfold mountLines
    rw [hc]
    exact List.mem_filterMap.mpr ⟨_, hline, hparse⟩
  have h1 : "/dev/sda1 -> /host/root (ext4)" ∈ (mountsRun fs).host_root_mounts := by
    show _ ∈ rustSortDedup _
    rw [mem_rustSortDedup]
    exact List.mem_flatMap.mpr ⟨_, hmem, by decide⟩
  have h2 : "/dev/sda1 -> /host/root (writable)" ∈ (mountsRun fs).writable_host_mounts := by
    show _ ∈ rustSortDedup _
    rw [mem_rustSortDedup]
    exact List.mem_flatMap.mpr ⟨_, hmem, List.mem_singleton.mpr rfl⟩
  refine ⟨h1, h2, ?_⟩
  cases hb : (mountsRun fs).success
  · rfl
  · exact absurd ((mounts_success_iff _).mp hb).2.2.2 (List.ne_nil_of_mem h1)

/-- C4 witness: the scenario evaluated on the concrete one-line mount table. -/
theorem hostroot_line_detected_witness :
    "/dev/sda1 -> /host/root (ext4)" ∈ (mountsRun hostRootMountFS).host_root_mounts ∧
    "/dev/sda1 -> /host/root (writable)" ∈ (mountsRun hostRootMountFS).writable_host_mounts ∧
    (mountsRun hostRootMountFS).success = false :=
  hostroot_line_detected hostRootMountFS "/dev/sda1 /host/root ext4 rw 0 0" rfl (by decide)

/-- C5: a mount-table line with at least four fields contributes
writable-host-mount evidence exactly under the condition the
specification words (no "ro" substring in the raw options, and a host
mount point or an existing absolute non-device source); when it does,
the recorded entry is the formatted line, and it lands in the Result's
collection. -/
theorem writable_rule_matches_spec (fs : MountFS) (line device mp fsty opts : String)
    (hparse : parseMountLine line = some (device, mp, fsty, opts)) :
    (lineWritable fs.pathEx device mp opts ≠ [] ↔
      writableSpecCond fs.pathEx device mp opts) ∧
    (lineWritable fs.pathEx device mp opts ≠ [] →
      lineWritable fs.pathEx device mp opts = [device ++ " -> " ++ mp ++ " (writable)"]) ∧
    (∀ content, fs.procMounts = some content → line ∈ rustLines content →
      ∀ e ∈ lineWritable fs.pathEx device mp opts,
        e ∈ (mountsRun fs).writable_host_mounts) := by
  refine ⟨?_, ?_, ?_⟩
  · unfold lineWritable writableSpecCond
    split_ifs with hcond
    · simp only [ne_eq, List.cons_ne_nil, not_false_eq_true, true_iff]
      simp only [Bool.and_eq_true, Bool.or_eq_true, Bool.not_eq_true'] at hcond
      tauto
    · simp only [ne_eq, not_true_eq_false, false_iff, not_not]
      simp only [Bool.and_eq_true, Bool.or_eq_true, Bool.not_eq_true'] at hcond
      intro hspec
      exact absurd (by tauto) hcond
  · unfold lineWritable
    split_ifs
    · intro _; rfl
    · intro h; exact absurd rfl h
  · intro content hc hl e he
    have hmem : (device, mp, fsty, opts) ∈ mountLines fs := by
      unfold mountLines
      rw [hc]
      exact List.mem_filterMap.mpr ⟨line, hl, hparse⟩
    show e ∈ rustSortDedup _
    rw [mem_rustSortDedup]
    exact List.mem_flatMap.mpr ⟨(device, mp, fsty, opts), hmem, he⟩

/-- C5 witness: the rule evaluated on a concrete writable /host mount
line whose options contain no "ro" substring. -/
theorem writable_rule_matches_spec_witness :
    "tmpfs -> /host/data (writable)" ∈ (mountsRun writableMountFS).writable_host_mounts :=
  (writable_rule_matches_spec writableMountFS "tmpfs /host/data tmpfs rw,relatime 0 0"
      "tmpfs" "/host/data" "tmpfs" "rw,relatime" rfl).2.2
    "tmpfs /host/data tmpfs rw,relatime 0 0" rfl (by decide)
    "tmpfs -> /host/data (writable)" (by decide)

/-- C6: on every filesystem state, both probes return the `Ok` variant of
the probe contract carrying a Result; the opaque failure variant is
never produced. -/
theorem probes_never_fail :
    ∀ (dfs : DeviceFS) (mfs : MountFS),
      (∃ r, deviceRunE dfs = Except.ok r) ∧ (∃ m, mountsRunE mfs = Except.ok m) :=
  fun dfs mfs => ⟨⟨deviceRun dfs, rfl⟩, ⟨mountsRun mfs, rfl⟩⟩

/-- C7: when the mount table, the device directories and every fixed
probed path are absent or unreadable, both probes complete with all
evidence collections empty and a succeeding verdict. -/
theorem absent_sources_give_empty_success (dfs : DeviceFS) (mfs : MountFS)
    (hdp : ∀ p, dfs.pathEx p = false) (hdd : dfs.devDir = none) (hdr : dfs.driDir = none)
    (hmp : mfs.procMounts = none) (hmx : ∀ p, mfs.pathEx p = false) :
    (deviceRun dfs).dangerous_devices = [] ∧ (deviceRun dfs).block_devices = [] ∧
    (deviceRun dfs).hardware_rngs = [] ∧ (deviceRun dfs).gpu_devices = [] ∧
    (deviceRun dfs).character_devices = [] ∧ (deviceRun dfs).success = true ∧
    (mountsRun mfs).dangerous_mounts = [] ∧ (mountsRun mfs).writable_host_mounts = [] ∧
    (mountsRun mfs).socket_mounts = [] ∧ (mountsRun mfs).host_root_mounts = [] ∧
    (mountsRun mfs).success = true := by
  have h0 : rustSortDedup [] = [] := rfl
  have hdev : deviceRun dfs = ⟨[], [], [], [], []⟩ := by
    unfold deviceRun
    rw [hdd, hdr]
    simp [hdp]
  have hmnt : mountsRun mfs = ⟨[], [], [], []⟩ := by
    unfold mountsRun mountLines socketFileEv
    rw [hmp]
    simp [hmx, h0]
  rw [hdev, hmnt]
  decide

/-- C7 witness: both probes on fully absent state. -/
theorem absent_sources_witness :
    (deviceRun absentDevFS).success = true ∧ (mountsRun absentMountFS).success = true :=
  ⟨(absent_sources_give_empty_success absentDevFS absentMountFS
      (fun _ => rfl) rfl rfl rfl (fun _ => rfl)).2.2.2.2.2.1,
   (absent_sources_give_empty_success absentDevFS absentMountFS
      (fun _ => rfl) rfl rfl rfl (fun _ => rfl)).2.2.2.2.2.2.2.2.2.2⟩

/-- C8: the canonical string form of every Result of either probe is
`"no"` exactly when `success()` is true and `"yes"` exactly when it is
false. -/
theorem as_string_canonical :
    ∀ (r : DeviceAccessResult) (m : HostMountsResult),
      ((r.as_string = "no") ↔ r.success = true) ∧
      ((r.as_string = "yes") ↔ r.success = false) ∧
      ((m.as_string = "no") ↔ m.success = true) ∧
      ((m.as_string = "yes") ↔ m.success = false) := by
  intro r m
  refine ⟨?_, ?_, ?_, ?_⟩
  · cases h : r.success <;> simp [DeviceAccessResult.as_string, h]
  · cases h : r.success <;> simp [DeviceAccessResult.as_string, h]
  · cases h : m.success <;> simp [HostMountsResult.as_string, h]
  · cases h : m.success <;> simp [HostMountsResult.as_string, h]

/-- C9: `fault_code()` is a fixed constant per probe type, independent of
evidence content, and the two probes' codes differ. -/
theorem fault_codes_fixed :
    (∀ r : DeviceAccessResult, r.fault_code = "AII3100") ∧
    (∀ m : HostMountsResult, m.fault_code = "AII3200") ∧
    ("AII3100" : String) ≠ "AII3200" :=
  ⟨fun _ => rfl, fun _ => rfl, by decide⟩

/-- C10: the device probe records hardware-RNG evidence (a character
device whose name starts with `hwrng` or is exactly `random` or
`urandom`) into the Result, but the collection is inert: two Results
that agree on the other four collections have the same verdict, the
same explanation and the same canonical string, whatever their RNG
evidence. -/
theorem rng_collected_but_ignored :
    (∀ (fs : DeviceFS) (es : List DirEntry) (e : DirEntry),
      fs.devDir = some es → e ∈ es → e.metaOk = true → e.ftype = FileType.char →
      isRngName e.name = true → ("/dev/" ++ e.name) ∈ (deviceRun fs).hardware_rngs) ∧
    (∀ (r₁ r₂ : DeviceAccessResult),
      r₁.dangerous_devices = r₂.dangerous_devices →
      r₁.block_devices = r₂.block_devices →
      r₁.gpu_devices = r₂.gpu_devices →
      r₁.character_devices = r₂.character_devices →
      r₁.success = r₂.success ∧ r₁.explain = r₂.explain ∧
        r₁.as_string = r₂.as_string) := by
  constructor
  · intro fs es e hdir hmem hmeta hchar hrng
    show _ ∈ ((fs.devDir.getD []).filter fun e => e.metaOk).flatMap entryRngEv
    refine List.mem_flatMap.mpr ⟨e, ?_, ?_⟩
    · rw [hdir]
      exact List.mem_filter.mpr ⟨hmem, hmeta⟩
    · simp [entryRngEv, hchar, hrng]
  · intro r₁ r₂ h₁ h₂ h₃ h₄
    have hs : r₁.success = r₂.success := by
      simp [DeviceAccessResult.success, h₁, h₂, h₃, h₄]
    refine ⟨hs, ?_, by simp [DeviceAccessResult.as_string, hs]⟩
    simp [DeviceAccessResult.explain, DeviceAccessResult.explainParts, h₁, h₂, h₃, h₄]

/-- C10 witness: `/dev/urandom` is collected on a concrete state, and two
concrete Results differing only in RNG evidence share their verdict. -/
theorem rng_collected_but_ignored_witness :
    ("/dev/urandom" ∈ (deviceRun rngWitnessFS).hardware_rngs) ∧
    (DeviceAccessResult.mk [] [] ["/dev/urandom"] [] []).success =
      (DeviceAccessResult.mk [] [] [] [] []).success :=
  ⟨rng_collected_but_ignored.1 rngWitnessFS [⟨"urandom", FileType.char, true⟩]
      ⟨"urandom", FileType.char, true⟩ rfl (by decide) rfl rfl (by decide),
   (rng_collected_but_ignored.2 ⟨[], [], ["/dev/urandom"], [], []⟩
      ⟨[], [], [], [], []⟩ rfl rfl rfl rfl).1⟩
